import Mathlib

/-!
Shallow embedding of the codecat-dc-agent authorization / task-lifecycle layer.

The definitions below are translated from the TypeScript sources:
* src/lib/config/constants.ts        (TASK_CONFIG, GUILD_CONFIG)
* src/lib/discord/guilds.ts          (userIsAdminInGuild, extractDiscordAccessToken,
                                      requestDiscordGuilds, fetchAdminGuilds)
* src/lib/github/auth.ts             (getGitHubAccessToken)
* src/lib/supabase/guilds.ts         (sanitizeGuildPermissions, createGuildRecord)
* src/lib/db/repositories/*          (BaseRepository validation, TaskRepository,
                                      GuildRepository.create)
* src/app/api/guilds/[guildId]/roles/route.ts  (GET handler)
* the guild service module           (mapGuildRecord)

External I/O (the Supabase store, the Discord HTTP API, session refresh) is
modelled by explicit state passing: stores are lists of rows, HTTP calls are
oracles passed in as functions, and fallible operations return Except/Option.
-/

namespace Codecat

/-- JavaScript runtime value, used where the source handles data of type
unknown (jsonb columns, OAuth identity payloads). -/
inductive JsonVal where
  | null
  | bool (b : Bool)
  | num (n : Int)
  | str (s : String)
  | arr (xs : List JsonVal)
  | obj (fields : List (String × JsonVal))

/-- JavaScript truthiness of an optional string: null/undefined and the empty
string are falsy, every other string is truthy. -/
def truthyStr : Option String → Bool
  | some s => s != ""
  | none => false

/-- Property lookup on a JavaScript object modelled as a field list. -/
def lookupDataKey (d : List (String × JsonVal)) (k : String) : Option JsonVal :=
  (d.find? (fun p => p.1 == k)).map (fun p => p.2)

/-- String projection of a JSON value. -/
def jsonStr? : JsonVal → Option String
  | .str s => some s
  | _ => none

/-- Task status values, from TASK_CONFIG.status in src/lib/config/constants.ts. -/
inductive TaskStatus where
  | pending_confirmation
  | in_progress
  | rejected
  | completed
deriving DecidableEq, Repr

/-- Task row, from the TaskRecord type of the task repository module. -/
structure TaskRecord where
  id : String
  user_id : Option String
  discord_user_id : String
  guild_id : String
  prompt : String
  status : TaskStatus
  pr_url : Option String
  created_at : String
deriving DecidableEq, Repr

/-- Error outcomes of the repository layer (BaseRepository wraps every failure
in a RepositoryError; the constructors below record which code path threw). -/
inductive RepoError where
  /-- validateRequired rejected an empty/missing parameter. -/
  | missingRequired
  /-- TaskRepository.update was called with an empty update object. -/
  | noUpdatesProvided
  /-- the PostgREST single() call matched no row. -/
  | rowNotReturned
deriving DecidableEq, Repr

/-- Update payload of TaskRepository.update: an absent field (outer none) is
left unchanged; prUrl can be set to a string or to null (inner Option). -/
structure UpdateTaskInput where
  status : Option TaskStatus := none
  prUrl : Option (Option String) := none
deriving DecidableEq, Repr

/-- The tasks table, modelled as a list of rows with unique id. -/
abbrev TaskStore := List TaskRecord

/-- Lookup of the row a task id refers to. -/
def findTask (store : TaskStore) (taskId : String) : Option TaskRecord :=
  store.find? (fun t => t.id == taskId)

namespace TaskRepository

/-- Field assignment performed by the update statement of
TaskRepository.update: set status and pr_url exactly when they are present in
the payload. -/
def applyUpdates (u : UpdateTaskInput) (t : TaskRecord) : TaskRecord :=
  let t1 := match u.status with
    | some s => { t with status := s }
    | none => t
  match u.prUrl with
  | some p => { t1 with pr_url := p }
  | none => t1

/-- TaskRepository.update: validates the task id, rejects an empty payload,
then issues an UPDATE filtered only by id (no predicate on the current
status), returning the updated row. -/
def update (store : TaskStore) (taskId : String) (u : UpdateTaskInput) :
    Except RepoError (TaskStore × TaskRecord) :=
  if taskId = "" then .error .missingRequired
  else if u.status.isNone && u.prUrl.isNone then .error .noUpdatesProvided
  else
    match store.find? (fun t => t.id == taskId) with
    | none => .error .rowNotReturned
    | some t =>
      .ok (store.map (fun r => if r.id == taskId then applyUpdates u r else r),
           applyUpdates u t)

/-- TaskRepository.updateStatus. -/
def updateStatus (store : TaskStore) (taskId : String) (status : TaskStatus) :
    Except RepoError (TaskStore × TaskRecord) :=
  update store taskId { status := some status }

/-- TaskRepository.complete: the handler for the automation completion signal,
writing status completed together with the produced PR URL. -/
def complete (store : TaskStore) (taskId : String) (prUrl : String) :
    Except RepoError (TaskStore × TaskRecord) :=
  update store taskId { status := some .completed, prUrl := some (some prUrl) }

/-- TaskRepository.reject. -/
def reject (store : TaskStore) (taskId : String) :
    Except RepoError (TaskStore × TaskRecord) :=
  updateStatus store taskId .rejected

/-- TaskRepository.startProgress. -/
def startProgress (store : TaskStore) (taskId : String) :
    Except RepoError (TaskStore × TaskRecord) :=
  updateStatus store taskId .in_progress

end TaskRepository

/-- Discord guild object as returned by the users/@me/guilds endpoint
(DiscordGuild type in src/lib/discord/guilds.ts). The owner and permissions
fields are optional in the payload; permissions is a decimal string. -/
structure DiscordGuild where
  id : String
  name : String
  icon : Option String
  owner : Option Bool
  permissions : Option String
deriving DecidableEq, Repr

/-- ADMIN_PERMISSION_BIT = 1n << 3n, the ADMINISTRATOR permission bit. -/
def ADMIN_PERMISSION_BIT : Int := 8

/-- One digit of a given base, or none when the character is not a digit of
that base. -/
def charDigit (base : Nat) (c : Char) : Option Nat :=
  let v : Option Nat :=
    if '0' ≤ c ∧ c ≤ '9' then some (c.toNat - '0'.toNat)
    else if 'a' ≤ c ∧ c ≤ 'z' then some (c.toNat - 'a'.toNat + 10)
    else if 'A' ≤ c ∧ c ≤ 'Z' then some (c.toNat - 'A'.toNat + 10)
    else none
  match v with
  | some d => if d < base then some d else none
  | none => none

/-- Digit-string value in a given base; none when empty or when any character
is not a digit of the base. -/
def parseDigits (base : Nat) (cs : List Char) : Option Nat :=
  if cs.isEmpty then none
  else
    cs.foldl
      (fun acc c =>
        match acc, charDigit base c with
        | some n, some d => some (n * base + d)
        | _, _ => none)
      (some 0)

/-- Whitespace trimming of a character list at both ends. -/
def trimChars (cs : List Char) : List Char :=
  ((cs.dropWhile Char.isWhitespace).reverse.dropWhile Char.isWhitespace).reverse

/-- Model of the JavaScript BigInt(string) conversion used by
userIsAdminInGuild: surrounding whitespace is ignored, the empty string is 0,
a 0x/0o/0b prefix selects the radix (no sign allowed there), otherwise an
optionally signed decimal integer; none models the thrown SyntaxError. -/
def jsBigInt (s : String) : Option Int :=
  match trimChars s.toList with
  | [] => some 0
  | '0' :: 'x' :: rest => (parseDigits 16 rest).map Int.ofNat
  | '0' :: 'X' :: rest => (parseDigits 16 rest).map Int.ofNat
  | '0' :: 'o' :: rest => (parseDigits 8 rest).map Int.ofNat
  | '0' :: 'O' :: rest => (parseDigits 8 rest).map Int.ofNat
  | '0' :: 'b' :: rest => (parseDigits 2 rest).map Int.ofNat
  | '0' :: 'B' :: rest => (parseDigits 2 rest).map Int.ofNat
  | '+' :: rest => (parseDigits 10 rest).map Int.ofNat
  | '-' :: rest => (parseDigits 10 rest).map (fun n => -(Int.ofNat n))
  | cs => (parseDigits 10 cs).map Int.ofNat

/-- userIsAdminInGuild from src/lib/discord/guilds.ts: true for the guild
owner; otherwise parse the permissions string as a BigInt and test the
ADMINISTRATOR bit, returning false when the field is falsy (absent or empty)
or when parsing throws. -/
def userIsAdminInGuild (g : DiscordGuild) : Bool :=
  if g.owner = some true then true
  else
    match g.permissions with
    | none => false
    | some s =>
      if s = "" then false
      else
        match jsBigInt s with
        | none => false
        | some n => Int.land n ADMIN_PERMISSION_BIT == ADMIN_PERMISSION_BIT

/-- Linked OAuth identity carried on the Supabase user. -/
structure Identity where
  provider : String
  identity_data : List (String × JsonVal)

/-- Supabase user as far as the credential resolvers read it. -/
structure SessionUser where
  identities : List Identity

/-- Supabase session as far as the credential resolvers read it. -/
structure Session where
  provider_token : Option String
  user : SessionUser

/-- getDiscordIdentity: first linked identity whose provider is discord. -/
def getDiscordIdentity (session : Option Session) : Option Identity :=
  match session with
  | none => none
  | some s => s.user.identities.find? (fun i => i.provider == "discord")

/-- Candidate key names probed in identity_data by
extractDiscordAccessToken, in source order. -/
def potentialKeys : List String :=
  ["access_token", "token", "oauth_token", "provider_access_token"]

/-- Value of one candidate key, kept only when it is a non-empty string
(the typeof value check of the source loop). -/
def candidateTokenAt (d : List (String × JsonVal)) (k : String) : Option String :=
  match lookupDataKey d k with
  | some (.str v) => if v.length > 0 then some v else none
  | _ => none

/-- The source loop over potentialKeys: first candidate key holding a
non-empty string. -/
def firstCandidateToken (d : List (String × JsonVal)) : List String → Option String
  | [] => none
  | k :: ks =>
    match candidateTokenAt d k with
    | some v => some v
    | none => firstCandidateToken d ks

/-- extractDiscordAccessToken from src/lib/discord/guilds.ts: the session
provider_token when truthy, else the first non-empty string under a candidate
key of the discord identity data, else null. -/
def extractDiscordAccessToken (session : Option Session) : Option String :=
  match session with
  | none => none
  | some s =>
    if truthyStr s.provider_token then s.provider_token
    else
      match getDiscordIdentity session with
      | none => none
      | some identity => firstCandidateToken identity.identity_data potentialKeys

/-- User metadata fields read by the GitHub credential resolver. -/
structure UserMetadata where
  github_access_token : Option String

/-- Supabase user as far as getGitHubAccessToken reads it. -/
structure GitHubUser where
  user_metadata : UserMetadata
  identities : List Identity

/-- getStringValue helper of getGitHubAccessToken: a string whose trimmed
length is positive, else null. -/
def getStringValue (v : Option JsonVal) : Option String :=
  match v with
  | some (.str s) => if (trimChars s.toList).length > 0 then some s else none
  | _ => none

/-- getGitHubAccessToken from src/lib/github/auth.ts: the session provider
token when truthy, else the github_access_token metadata field when truthy,
else the first of access_token / provider_token / token in the github
identity data that is a non-blank string, else null. -/
def getGitHubAccessToken (user : GitHubUser) (providerToken : Option String) :
    Option String :=
  if truthyStr providerToken then providerToken
  else if truthyStr user.user_metadata.github_access_token then
    user.user_metadata.github_access_token
  else
    match user.identities.find? (fun i => i.provider == "github") with
    | none => none
    | some gi =>
      match getStringValue (lookupDataKey gi.identity_data "access_token") with
      | some t => some t
      | none =>
        match getStringValue (lookupDataKey gi.identity_data "provider_token") with
        | some t => some t
        | none =>
          match getStringValue (lookupDataKey gi.identity_data "token") with
          | some t => some t
          | none => none

/-- Shape of one requestDiscordGuilds response: the unauthorized flag is set
exactly for a 401; every other failure comes back as a plain empty list. -/
structure DiscordGuildResponse where
  unauthorized : Bool
  guilds : List DiscordGuild

/-- External collaborators of fetchAdminGuilds: refresh is the outcome of the
k-th supabase.auth.refreshSession() call (none covers both an error and a
null session), request is the guilds endpoint as a function of the bearer
token used. -/
structure FetchEnv where
  refresh : Nat → Option Session
  request : String → DiscordGuildResponse

/-- Mutable locals of fetchAdminGuilds (session, accessToken) together with
the number of refreshSession calls made so far. -/
structure FetchSt where
  session : Session
  accessToken : Option String
  refreshCalls : Nat

/-- The ensureAccessToken closure: refresh the session only when no access
token is in hand, re-resolving the token from the refreshed session. -/
def ensureAccessToken (env : FetchEnv) (st : FetchSt) : FetchSt :=
  if st.accessToken.isSome then st
  else
    match env.refresh st.refreshCalls with
    | none => { st with refreshCalls := st.refreshCalls + 1 }
    | some s =>
      { session := s
        accessToken := extractDiscordAccessToken (some s)
        refreshCalls := st.refreshCalls + 1 }

/-- Caller-visible return value of fetchAdminGuilds: the (possibly refreshed)
session and the filtered guild list. The source returns nothing else. -/
structure FetchAdminGuildsReturn where
  session : Session
  guilds : List DiscordGuild

/-- Loop iteration attempt = 1 of fetchAdminGuilds, entered with the state
left by the first failed attempt: bail out when no token was recovered,
return the filtered guilds on a non-401 response, and otherwise run the final
ensureAccessToken before falling off the loop with an empty list. The second
component counts the requestDiscordGuilds calls of the whole run. -/
def fetchAttempt2 (env : FetchEnv) (st2 : FetchSt) :
    FetchAdminGuildsReturn × Nat :=
  match st2.accessToken with
  | none => (⟨st2.session, []⟩, 1)
  | some t1 =>
    if !(env.request t1).unauthorized then
      (⟨st2.session, (env.request t1).guilds.filter userIsAdminInGuild⟩, 2)
    else
      (⟨(ensureAccessToken env ⟨st2.session, none, st2.refreshCalls⟩).session,
        []⟩, 2)

/-- Loop iteration attempt = 0 of fetchAdminGuilds, entered after the initial
ensureAccessToken: bail out without any upstream call when no token is
available, return the filtered guilds on a non-401 response, and otherwise
discard the token, refresh, and move to the second attempt. -/
def fetchAttempt1 (env : FetchEnv) (st1 : FetchSt) :
    FetchAdminGuildsReturn × Nat :=
  match st1.accessToken with
  | none => (⟨st1.session, []⟩, 0)
  | some t0 =>
    if !(env.request t0).unauthorized then
      (⟨st1.session, (env.request t0).guilds.filter userIsAdminInGuild⟩, 1)
    else
      fetchAttempt2 env
        (ensureAccessToken env ⟨st1.session, none, st1.refreshCalls⟩)

/-- Instrumented fetchAdminGuilds from src/lib/discord/guilds.ts: resolve the
token from the initial session, run ensureAccessToken once, then the two-pass
retry loop (the source loop runs for attempt = 0 and 1 only), paired with the
number of requestDiscordGuilds calls performed. -/
def fetchAdminGuildsI (env : FetchEnv) (initialSession : Session) :
    FetchAdminGuildsReturn × Nat :=
  fetchAttempt1 env
    (ensureAccessToken env
      ⟨initialSession, extractDiscordAccessToken (some initialSession), 0⟩)

/-- Caller-visible result of fetchAdminGuilds. -/
def fetchAdminGuilds (env : FetchEnv) (initialSession : Session) :
    FetchAdminGuildsReturn :=
  (fetchAdminGuildsI env initialSession).1

/-- Number of upstream guild-listing calls a fetchAdminGuilds run performs. -/
def fetchAdminGuildsCalls (env : FetchEnv) (initialSession : Session) : Nat :=
  (fetchAdminGuildsI env initialSession).2

/-- Guild permissions object, from the GuildPermissions schema type. -/
structure GuildPermissions where
  create_roles : List String
  confirm_roles : List String
deriving DecidableEq, Repr

/-- DEFAULT_DB_GUILD_PERMISSIONS from src/lib/supabase/guilds.ts. -/
def DEFAULT_DB_GUILD_PERMISSIONS : GuildPermissions := ⟨[], []⟩

/-- The same default as the JSON value it is stored as. -/
def DEFAULT_DB_GUILD_PERMISSIONS_JSON : JsonVal :=
  .obj [("create_roles", .arr []), ("confirm_roles", .arr [])]

/-- sanitizeGuildPermissions from src/lib/supabase/guilds.ts, over the raw
JSON shape the jsonb column may hold: a non-object input yields the default,
a missing or non-array field yields an empty list, and non-string elements
are filtered out. -/
def sanitizeGuildPermissions (value : JsonVal) : GuildPermissions :=
  match value with
  | .obj fields =>
    let create_roles :=
      match lookupDataKey fields "create_roles" with
      | some (.arr xs) => xs.filterMap jsonStr?
      | _ => []
    let confirm_roles :=
      match lookupDataKey fields "confirm_roles" with
      | some (.arr xs) => xs.filterMap jsonStr?
      | _ => []
    ⟨create_roles, confirm_roles⟩
  | _ => ⟨[], []⟩

/-- Spec reading of the §3 guild invariant, written from the spec words, for
comparison with the implementation: the surfaced list under a key keeps
exactly the string elements of an array field of an object value and defaults
to empty for every other shape (missing object, non-object, missing or
non-array field). -/
def specRoleList (value : JsonVal) (key : String) : List String :=
  match value with
  | .obj fields =>
    match lookupDataKey fields key with
    | some (.arr xs) => xs.filterMap jsonStr?
    | _ => []
  | _ => []

/-- Guild row of the guild service module, with the permissions jsonb column
kept in its raw JSON shape (the TypeScript annotation promises a
GuildPermissions object, but the value comes straight from the database and
is sanitized before use). -/
structure RawGuildRecord where
  id : String
  guild_id : String
  installer_user_id : Option String
  name : Option String
  default_repo : Option String
  default_branch : Option String
  permissions : Option JsonVal
  default_jules_api_key : Option String
  created_at : Option String

/-- Display options passed to mapGuildRecord. -/
structure MapGuildOptions where
  name : Option String := none
  icon : Option String := none

/-- Guild object surfaced to dashboard callers by mapGuildRecord. -/
structure MappedGuild where
  id : String
  name : String
  icon : Option String
  defaultRepo : Option String
  defaultBranch : Option String
  permissions : GuildPermissions
  defaultJulesApiKeySet : Bool
  createdAt : Option String

/-- mapGuildRecord from the guild service module: sanitize the stored
permissions (falling back to the default object when the column is null) and
project the remaining fields. -/
def mapGuildRecord (record : RawGuildRecord) (options : MapGuildOptions) :
    MappedGuild :=
  { id := record.guild_id
    name := options.name.getD record.guild_id
    icon := options.icon
    defaultRepo := record.default_repo
    defaultBranch := record.default_branch
    permissions :=
      sanitizeGuildPermissions
        (record.permissions.getD DEFAULT_DB_GUILD_PERMISSIONS_JSON)
    defaultJulesApiKeySet := truthyStr record.default_jules_api_key
    createdAt := record.created_at }

/-- Guild row as selected by getGuildForUser in src/lib/supabase/guilds.ts
(typed shape, used by the roles route). -/
structure SbGuildRecord where
  id : String
  guild_id : String
  installer_user_id : Option String
  name : Option String
  default_repo : Option String
  default_branch : Option String
  permissions : Option GuildPermissions
  default_jules_api_key : Option String
  created_at : Option String
deriving DecidableEq, Repr

/-- Discord role payload (DiscordRole type in the API helper module). -/
structure DiscordRole where
  id : String
  name : String
  color : Int
  position : Int
  managed : Bool
  mentionable : Bool
deriving DecidableEq, Repr

/-- Response of the roles route GET handler: a JSON body with the role list
and an optional warning, or an error body with an HTTP status. -/
inductive RolesRouteResponse where
  | ok (roles : List DiscordRole) (warning : Option String)
  | err (code : String) (status : Nat)
deriving DecidableEq, Repr

/-- First-occurrence deduplication, the order JavaScript Set iteration
produces for Array.from(new Set(xs)). -/
def dedupFirst (xs : List String) : List String :=
  xs.foldl (fun acc x => if acc.contains x then acc else acc ++ [x]) []

/-- Role ids stored in a guild record's configured permissions, as the roles
route reads them: create_roles followed by confirm_roles, each defaulting to
empty when the permissions column is null. -/
def storedRoleIds (record : SbGuildRecord) : List String :=
  (match record.permissions with
   | some p => p.create_roles
   | none => []) ++
  (match record.permissions with
   | some p => p.confirm_roles
   | none => [])

/-- Placeholder role record synthesized by the roles route fallback: the raw
role id serves as both id and name. -/
def placeholderRole (roleId : String) : DiscordRole :=
  { id := roleId, name := roleId, color := 0, position := 0
    managed := false, mentionable := false }

/-- GET handler of src/app/api/guilds/[guildId]/roles/route.ts, with its
external inputs passed explicitly: the normalized guild id, whether an
authenticated session is present, the getGuildForUser outcome, and the
fetchDiscordRoles outcome (the error payloads carry the thrown message). -/
def rolesRouteGET (guildId : Option String) (sessionPresent : Bool)
    (guildLookup : Except String (Option SbGuildRecord))
    (discordRoles : Except String (List DiscordRole)) : RolesRouteResponse :=
  match guildId with
  | none => .err "invalid_guild_id" 400
  | some _ =>
    if !sessionPresent then .err "unauthenticated" 401
    else
      match guildLookup with
      | .error _ => .err "roles_fetch_failed" 500
      | .ok none => .err "guild_not_found" 404
      | .ok (some record) =>
        match discordRoles with
        | .ok roles => .ok roles none
        | .error _ =>
          .ok ((dedupFirst (storedRoleIds record)).map placeholderRole)
            (some "discord_roles_unavailable")

/-- Capability answer of the Permission Reconciler. -/
structure Capabilities where
  canCreate : Bool
  canConfirm : Bool
deriving DecidableEq, Repr

/-- Modelled from the spec: the Permission Reconciler of spec section 4.2 is
not present in the repository sources (the dashboard only ships the admin
predicate userIsAdminInGuild and the bot integration is still a plan
document), so capability resolution is modelled from the spec words: may
create / may confirm are decided by intersecting the requester's role ids
with the configured lists, and a user recognized as the guild owner or
holding the administrator permission bit is granted both capabilities
unconditionally. -/
def resolveCapabilities (guild : DiscordGuild) (perms : GuildPermissions)
    (userRoleIds : List String) : Capabilities :=
  let admin := userIsAdminInGuild guild
  let holds := fun (roleIds : List String) =>
    roleIds.any (fun r => userRoleIds.contains r)
  ⟨admin || holds perms.create_roles, admin || holds perms.confirm_roles⟩

/-- GUILD_CONFIG.defaultBranch from src/lib/config/constants.ts. -/
def GUILD_CONFIG_defaultBranch : String := "main"

/-- Default model string of GuildRepository.create. -/
def GUILD_REPOSITORY_defaultModel : String := "anthropic/claude-3.5-sonnet"

/-- Guild row written by GuildRepository.create (the OpenRouter variant of
the guilds table insert payload). -/
structure DbGuildRow where
  guild_id : String
  installer_user_id : String
  name : Option String
  default_branch : Option String
  permissions : GuildPermissions
  default_repo : Option String
  default_openrouter_api_key : Option String
  default_model : Option String
deriving DecidableEq, Repr

/-- CreateGuildInput of the guild repository: an absent optional field (outer
none) takes the destructuring default, an explicit null is the inner none. -/
structure CreateGuildInput where
  guildId : String
  installerUserId : String
  name : Option (Option String) := none
  permissions : Option GuildPermissions := none
  defaultBranch : Option (Option String) := none
  defaultRepo : Option (Option String) := none
  defaultOpenRouterApiKey : Option (Option String) := none
  defaultModel : Option (Option String) := none
deriving DecidableEq, Repr

/-- Name overwrite issued after a successful insert when a name was given:
update name where guild_id and installer_user_id match. -/
def updGuildName (guildId installerUserId n : String) (r : DbGuildRow) :
    DbGuildRow :=
  if r.guild_id == guildId && r.installer_user_id == installerUserId then
    { r with name := some n }
  else r

/-- Insert payload of GuildRepository.create with the destructuring defaults
applied. -/
def newGuildRow (input : CreateGuildInput) : DbGuildRow :=
  { guild_id := input.guildId
    installer_user_id := input.installerUserId
    name := input.name.getD none
    default_branch := input.defaultBranch.getD (some GUILD_CONFIG_defaultBranch)
    permissions := input.permissions.getD DEFAULT_DB_GUILD_PERMISSIONS
    default_repo := input.defaultRepo.getD none
    default_openrouter_api_key := input.defaultOpenRouterApiKey.getD none
    default_model := input.defaultModel.getD (some GUILD_REPOSITORY_defaultModel) }

namespace GuildRepository

/-- GuildRepository.create from src/lib/db/repositories/guild-repository.ts:
validate the required ids, insert the row with destructuring defaults, treat
a duplicate-key error (23505, the guild_id unique constraint) as an early
successful return that skips the name overwrite, and otherwise overwrite the
name when a truthy one was provided. -/
def create (store : List DbGuildRow) (input : CreateGuildInput) :
    Except RepoError (List DbGuildRow) :=
  if input.guildId = "" ∨ input.installerUserId = "" then .error .missingRequired
  else if store.any (fun r => r.guild_id == input.guildId) then .ok store
  else
    match input.name.getD none with
    | some n =>
      if n ≠ "" then
        .ok ((store ++ [newGuildRow input]).map
          (updGuildName input.guildId input.installerUserId n))
      else .ok (store ++ [newGuildRow input])
    | none => .ok (store ++ [newGuildRow input])

end GuildRepository

/-- CreateGuildRecordInput of createGuildRecord in src/lib/supabase/guilds.ts
(the Jules variant). -/
structure CreateGuildRecordInput where
  guildId : String
  installerUserId : String
  name : Option (Option String) := none
  permissions : Option GuildPermissions := none
  defaultBranch : Option (Option String) := none
  defaultRepo : Option (Option String) := none
  defaultJulesApiKey : Option (Option String) := none
deriving DecidableEq, Repr

/-- Guild row written by createGuildRecord. -/
structure SbGuildRow where
  guild_id : String
  installer_user_id : String
  name : Option String
  default_branch : Option String
  permissions : GuildPermissions
  default_repo : Option String
  default_jules_api_key : Option String
deriving DecidableEq, Repr

/-- Name overwrite of createGuildRecord, keyed like updGuildName. -/
def updSbGuildName (guildId installerUserId n : String) (r : SbGuildRow) :
    SbGuildRow :=
  if r.guild_id == guildId && r.installer_user_id == installerUserId then
    { r with name := some n }
  else r

/-- Insert step of createGuildRecord: an insert with onConflict guild_id and
ignoreDuplicates, so a duplicate is silently skipped, not an error. -/
def insertGuildIfAbsent (store : List SbGuildRow) (input : CreateGuildRecordInput) :
    List SbGuildRow :=
  if store.any (fun r => r.guild_id == input.guildId) then store
  else
    store ++
      [{ guild_id := input.guildId
         installer_user_id := input.installerUserId
         name := input.name.getD none
         default_branch := input.defaultBranch.getD (some GUILD_CONFIG_defaultBranch)
         permissions := input.permissions.getD DEFAULT_DB_GUILD_PERMISSIONS
         default_repo := input.defaultRepo.getD none
         default_jules_api_key := input.defaultJulesApiKey.getD none }]

/-- Name step of createGuildRecord: overwrite the name for the matching
guild and installer when a truthy name was given. -/
def applyGuildName (store : List SbGuildRow) (input : CreateGuildRecordInput) :
    List SbGuildRow :=
  match input.name.getD none with
  | some n =>
    if n ≠ "" then
      store.map (updSbGuildName input.guildId input.installerUserId n)
    else store
  | none => store

/-- createGuildRecord from src/lib/supabase/guilds.ts: the duplicate-tolerant
insert followed by the conditional name overwrite. -/
def createGuildRecord (store : List SbGuildRow) (input : CreateGuildRecordInput) :
    List SbGuildRow :=
  applyGuildName (insertGuildIfAbsent store input) input

/-- Task stored as rejected, used as a concrete input. -/
def exTaskRejected : TaskRecord :=
  ⟨"t1", none, "490", "g1", "fix the login flow", .rejected, none, "2025-01-01"⟩

/-- Task stored as completed, used as a concrete input. -/
def exTaskCompleted : TaskRecord :=
  ⟨"t2", some "acct", "491", "g1", "add dark mode", .completed,
    some "https://example.com/pr/7", "2025-01-02"⟩

/-- Task stored as pending_confirmation, used as a concrete input. -/
def exTaskPending : TaskRecord :=
  ⟨"t3", none, "492", "g2", "update the readme", .pending_confirmation, none,
    "2025-01-03"⟩

/-- Session holding a Discord provider token directly. -/
def exSession : Session := ⟨some "tokA", ⟨[]⟩⟩

/-- Environment whose guild-listing endpoint always answers 401 and whose
session refresh always yields exSession again. -/
def envAllUnauthorized : FetchEnv :=
  ⟨fun _ => some exSession, fun _ => ⟨true, []⟩⟩

/-- Environment whose guild-listing endpoint always fails without a 401
(for example a 500), refreshing like envAllUnauthorized. -/
def envAllFailed : FetchEnv :=
  ⟨fun _ => some exSession, fun _ => ⟨false, []⟩⟩

/-- Guild owned by the caller. -/
def exOwnedGuild : DiscordGuild := ⟨"900", "mine", none, some true, none⟩

/-- Guild where the caller is neither owner nor administrator. -/
def exPlainGuild : DiscordGuild := ⟨"901", "other", none, some false, some "0"⟩

/-- Environment whose guild-listing endpoint succeeds with one admin and one
non-admin guild. -/
def envTwoGuilds : FetchEnv :=
  ⟨fun _ => none, fun _ => ⟨false, [exOwnedGuild, exPlainGuild]⟩⟩

/-- Guild record with overlapping configured role lists, used as a concrete
input for the roles route fallback. -/
def exRolesRecord : SbGuildRecord :=
  ⟨"uuid-1", "900", some "acct", some "mine", none, some "main",
    some ⟨["A", "B"], ["B", "C"]⟩, none, some "2025-01-01"⟩

/-- Concrete guild creation input for the repository variant. -/
def exCreateInput : CreateGuildInput :=
  { guildId := "900", installerUserId := "acct" }

/-- Store contents after exCreateInput has been created once. -/
def exGuildStore1 : List DbGuildRow :=
  [{ guild_id := "900", installer_user_id := "acct", name := none
     default_branch := some "main", permissions := ⟨[], []⟩
     default_repo := none, default_openrouter_api_key := none
     default_model := some "anthropic/claude-3.5-sonnet" }]

/-- Concrete guild creation input for the supabase helper variant. -/
def exCreateRecordInput : CreateGuildRecordInput :=
  { guildId := "900", installerUserId := "acct", name := some (some "mine") }

/-- GitHub user whose metadata and identities hold no usable token. -/
def exGitHubUserEmpty : GitHubUser :=
  ⟨⟨none⟩, [⟨"github", [("access_token", .num 3), ("token", .str "")]⟩]⟩

/-- Session with a Discord identity but no token anywhere. -/
def exSessionNoToken : Session :=
  ⟨none, ⟨[⟨"discord", [("access_token", .bool true), ("token", .str "")]⟩]⟩⟩


/-- C1 (amended): a guarded status transition is not a conditional write.
TaskRepository.complete (the completion-signal handler) issues an UPDATE
filtered only by the task id: for every store and every existing task,
whatever its current status, the call succeeds and overwrites status and
pr_url; there is no StaleTransition error in the repository layer. -/
theorem c1_completion_signal_unconditional (store : TaskStore) (taskId prUrl : String)
    (t : TaskRecord) (hid : taskId ≠ "") (hfind : findTask store taskId = some t) :
    TaskRepository.complete store taskId prUrl =
      .ok (store.map (fun r => if r.id == taskId
              then { r with status := .completed, pr_url := some prUrl } else r),
            { t with status := .completed, pr_url := some prUrl }) := by
  have h := hfind
  unfold findTask at h
  simp [TaskRepository.complete, TaskRepository.update, TaskRepository.applyUpdates,
    hid, h]

/-- C1 counterexample: applying the completion signal to a task whose
stored status is rejected does not fail with a StaleTransition error and
does not leave the status unchanged; it succeeds and overwrites the status
to completed, contradicting the claim as stated. -/
theorem c1_counterexample :
    TaskRepository.complete [exTaskRejected] "t1" "https://example.com/pr/9" =
      .ok ([{ exTaskRejected with status := .completed, pr_url := some "https://example.com/pr/9" }],
            { exTaskRejected with status := .completed, pr_url := some "https://example.com/pr/9" }) ∧
    exTaskRejected.status = .rejected := by
  constructor
  · rfl
  · rfl

/-- C1 witness: the amended theorem applied at a concrete one-task store. -/
theorem c1_witness :
    TaskRepository.complete [exTaskPending] "t3" "https://example.com/pr/5" =
      .ok ([{ exTaskPending with status := .completed, pr_url := some "https://example.com/pr/5" }],
            { exTaskPending with status := .completed, pr_url := some "https://example.com/pr/5" }) := by
  have h := c1_completion_signal_unconditional [exTaskPending] "t3"
    "https://example.com/pr/5" exTaskPending (by decide) (by decide)
  simpa using h

/-- C2 (amended): the repository does not enforce the forward-only
transition graph. TaskRepository.updateStatus (hence reject, startProgress
and complete) overwrites the status of any existing task with the requested
value, whatever the current status, so a terminal status is not preserved
and a task can visit both completed and rejected. -/
theorem c2_updateStatus_unconditional (store : TaskStore) (taskId : String)
    (s : TaskStatus) (t : TaskRecord) (hid : taskId ≠ "")
    (hfind : findTask store taskId = some t) :
    TaskRepository.updateStatus store taskId s =
      .ok (store.map (fun r => if r.id == taskId then { r with status := s } else r),
            { t with status := s }) := by
  have h := hfind
  unfold findTask at h
  simp [TaskRepository.updateStatus, TaskRepository.update, TaskRepository.applyUpdates,
    hid, h]

/-- C2 counterexample: a task whose stored status is the terminal
completed is moved to rejected by TaskRepository.reject, so the status does
not only move forward and the task visits both terminal states. -/
theorem c2_counterexample :
    TaskRepository.reject [exTaskCompleted] "t2" =
      .ok ([{ exTaskCompleted with status := .rejected }],
            { exTaskCompleted with status := .rejected }) ∧
    exTaskCompleted.status = .completed := by
  exact ⟨rfl, rfl⟩

/-- C2 witness: the amended theorem applied at a concrete one-task store,
moving a completed task back to in_progress. -/
theorem c2_witness :
    TaskRepository.updateStatus [exTaskCompleted] "t2" .in_progress =
      .ok ([{ exTaskCompleted with status := .in_progress }],
            { exTaskCompleted with status := .in_progress }) := by
  have h := c2_updateStatus_unconditional [exTaskCompleted] "t2" .in_progress
    exTaskCompleted (by decide) (by decide)
  simpa using h


/-- C3 counterexample: the caller-visible result of fetchAdminGuilds when
every guild-listing call answers 401 is identical to the result when the
first call fails without a 401, so no unauthorized flag is returned to the
caller (the two runs perform 2 and 1 upstream calls respectively). -/
theorem c3_counterexample :
    fetchAdminGuilds envAllUnauthorized exSession =
      fetchAdminGuilds envAllFailed exSession ∧
    fetchAdminGuildsCalls envAllUnauthorized exSession = 2 ∧
    fetchAdminGuildsCalls envAllFailed exSession = 1 := by
  exact ⟨rfl, rfl, rfl⟩

/-- C3 (amended): with a resolvable token whose guild-listing calls all
fail authentication and refreshes that keep yielding a token, fetchAdminGuilds
performs exactly 2 upstream guild-listing calls and returns an empty guild
list; the return value carries only the session and the guild list, with no
unauthorized flag. -/
theorem c3_two_attempts_empty_no_flag (env : FetchEnv) (s0 : Session) (t0 : String)
    (htok : extractDiscordAccessToken (some s0) = some t0)
    (hreq : ∀ t, (env.request t).unauthorized = true)
    (hrefresh : ∀ k, ∃ s, env.refresh k = some s ∧
      (extractDiscordAccessToken (some s)).isSome = true) :
    (fetchAdminGuilds env s0).guilds = [] ∧ fetchAdminGuildsCalls env s0 = 2 := by
  obtain ⟨s1, hs1, hs1tok⟩ := hrefresh 0
  obtain ⟨t1, ht1⟩ := Option.isSome_iff_exists.mp hs1tok
  have hens0 : ensureAccessToken env ⟨s0, some t0, 0⟩ = ⟨s0, some t0, 0⟩ := rfl
  have hens1 : ensureAccessToken env ⟨s0, none, 0⟩ = ⟨s1, some t1, 1⟩ := by
    unfold ensureAccessToken
    simp [hs1, ht1]
  unfold fetchAdminGuilds fetchAdminGuildsCalls fetchAdminGuildsI
  rw [htok]
  simp [hens0, hens1, hreq, fetchAttempt1, fetchAttempt2]


/-- C3 witness: the amended theorem applied at a concrete environment
whose guild endpoint always answers 401. -/
theorem c3_witness :
    (fetchAdminGuilds envAllUnauthorized exSession).guilds = [] ∧
    fetchAdminGuildsCalls envAllUnauthorized exSession = 2 :=
  c3_two_attempts_empty_no_flag envAllUnauthorized exSession "tokA" rfl
    (fun _ => rfl) (fun _ => ⟨exSession, rfl, rfl⟩)

theorem firstCandidateToken_eq_none (d : List (String × JsonVal)) (ks : List String)
    (h : ∀ k ∈ ks, candidateTokenAt d k = none) :
    firstCandidateToken d ks = none := by
  induction ks with
  | nil => rfl
  | cons k ks ih =>
    unfold firstCandidateToken
    rw [h k (by simp)]
    exact ih (fun k hk => h k (by simp [hk]))

/-- C4: credential resolution returns the session-scoped provider token
whenever it is present (non-empty), regardless of identity data or account
metadata, for both the Discord and the GitHub resolver; and when no
candidate location holds a non-empty token both resolvers return null
rather than failing. -/
theorem c4_session_token_priority_and_null :
    (∀ (sess : Session) (t : String), sess.provider_token = some t → t ≠ "" →
      extractDiscordAccessToken (some sess) = some t) ∧
    (∀ (user : GitHubUser) (t : String), t ≠ "" →
      getGitHubAccessToken user (some t) = some t) ∧
    (∀ sess : Session, truthyStr sess.provider_token = false →
      (∀ identity, getDiscordIdentity (some sess) = some identity →
        ∀ k ∈ potentialKeys, candidateTokenAt identity.identity_data k = none) →
      extractDiscordAccessToken (some sess) = none) ∧
    (∀ (user : GitHubUser) (pt : Option String), truthyStr pt = false →
      truthyStr user.user_metadata.github_access_token = false →
      (∀ gi, user.identities.find? (fun i => i.provider == "github") = some gi →
        getStringValue (lookupDataKey gi.identity_data "access_token") = none ∧
        getStringValue (lookupDataKey gi.identity_data "provider_token") = none ∧
        getStringValue (lookupDataKey gi.identity_data "token") = none) →
      getGitHubAccessToken user pt = none) := by
  refine ⟨?_, ?_, ?_, ?_⟩
  · intro sess t h hne
    simp [extractDiscordAccessToken, truthyStr, h, hne]
  · intro user t hne
    simp [getGitHubAccessToken, truthyStr, hne]
  · intro sess hfalsy hids
    unfold extractDiscordAccessToken
    simp only [hfalsy, Bool.false_eq_true, if_false]
    cases hgi : getDiscordIdentity (some sess) with
    | none => simp [hgi]
    | some identity =>
      simp [hgi, firstCandidateToken_eq_none _ _ (hids identity hgi)]
  · intro user pt hpt hmeta hids
    unfold getGitHubAccessToken
    simp only [hpt, hmeta, Bool.false_eq_true, if_false]
    cases hgi : user.identities.find? (fun i => i.provider == "github") with
    | none => simp [hgi]
    | some gi =>
      obtain ⟨h1, h2, h3⟩ := hids gi hgi
      simp [hgi, h1, h2, h3]

/-- C4 witness: the four conjuncts of the theorem applied at concrete
sessions and users. -/
theorem c4_witness :
    extractDiscordAccessToken (some exSession) = some "tokA" ∧
    getGitHubAccessToken exGitHubUserEmpty (some "gtok") = some "gtok" ∧
    extractDiscordAccessToken (some exSessionNoToken) = none ∧
    getGitHubAccessToken exGitHubUserEmpty none = none := by
  refine ⟨?_, ?_, ?_, ?_⟩
  · exact c4_session_token_priority_and_null.1 exSession "tokA" rfl (by decide)
  · exact c4_session_token_priority_and_null.2.1 exGitHubUserEmpty "gtok" (by decide)
  · refine c4_session_token_priority_and_null.2.2.1 exSessionNoToken rfl ?_
    intro identity hid k hk
    have hident : identity = ⟨"discord", [("access_token", .bool true), ("token", .str "")]⟩ := by
      simpa [getDiscordIdentity, exSessionNoToken] using hid.symm
    subst hident
    fin_cases hk <;> rfl
  · refine c4_session_token_priority_and_null.2.2.2 exGitHubUserEmpty none rfl rfl ?_
    intro gi hgi
    have hident : gi = ⟨"github", [("access_token", .num 3), ("token", .str "")]⟩ := by
      simpa [exGitHubUserEmpty] using hgi.symm
    subst hident
    exact ⟨rfl, rfl, rfl⟩


theorem dedupFirst_go_mem (xs : List String) :
    ∀ (acc : List String) (y : String),
      y ∈ xs.foldl (fun acc x => if acc.contains x then acc else acc ++ [x]) acc ↔
        y ∈ acc ∨ y ∈ xs := by
  induction xs with
  | nil => simp
  | cons x xs ih =>
    intro acc y
    simp only [List.foldl_cons]
    by_cases hc : acc.contains x = true
    · rw [if_pos hc, ih]
      have hx : x ∈ acc := List.elem_iff.mp hc
      constructor
      · rintro (h | h)
        · exact Or.inl h
        · exact Or.inr (List.mem_cons_of_mem _ h)
      · rintro (h | h)
        · exact Or.inl h
        · rcases List.mem_cons.mp h with rfl | h
          · exact Or.inl hx
          · exact Or.inr h
    · rw [if_neg hc, ih]
      simp only [List.mem_append, List.mem_singleton, List.mem_cons]
      tauto

theorem dedupFirst_go_nodup (xs : List String) :
    ∀ acc : List String, acc.Nodup →
      (xs.foldl (fun acc x => if acc.contains x then acc else acc ++ [x]) acc).Nodup := by
  induction xs with
  | nil => intro acc h; simpa using h
  | cons x xs ih =>
    intro acc hacc
    simp only [List.foldl_cons]
    by_cases hc : acc.contains x = true
    · rw [if_pos hc]; exact ih acc hacc
    · rw [if_neg hc]
      refine ih _ ?_
      rw [List.nodup_append]
      refine ⟨hacc, List.nodup_singleton x, ?_⟩
      intro a ha hax
      rcases List.mem_singleton.mp hax with rfl
      exact hc (List.elem_iff.mpr ha)

theorem mem_dedupFirst (xs : List String) (y : String) :
    y ∈ dedupFirst xs ↔ y ∈ xs := by
  unfold dedupFirst
  rw [dedupFirst_go_mem]
  simp

theorem nodup_dedupFirst (xs : List String) : (dedupFirst xs).Nodup :=
  dedupFirst_go_nodup xs [] List.nodup_nil

/-- C5: when the live role-listing call fails, the roles route does not
fail outright: it answers 200 with one placeholder role per role id stored
in the guild permissions (each id listed once, the name equal to the raw
id) together with the discord_roles_unavailable warning. -/
theorem c5_roles_fallback_placeholders (gid : String) (record : SbGuildRecord)
    (e : String) :
    rolesRouteGET (some gid) true (.ok (some record)) (.error e) =
      .ok ((dedupFirst (storedRoleIds record)).map placeholderRole)
        (some "discord_roles_unavailable") ∧
    (∀ r ∈ (dedupFirst (storedRoleIds record)).map placeholderRole, r.name = r.id) ∧
    ((dedupFirst (storedRoleIds record)).map placeholderRole).map DiscordRole.id =
      dedupFirst (storedRoleIds record) ∧
    (dedupFirst (storedRoleIds record)).Nodup ∧
    (∀ x, x ∈ dedupFirst (storedRoleIds record) ↔ x ∈ storedRoleIds record) := by
  refine ⟨rfl, ?_, ?_, nodup_dedupFirst _, fun x => mem_dedupFirst _ x⟩
  · intro r hr
    obtain ⟨x, _, rfl⟩ := List.mem_map.mp hr
    rfl
  · rw [List.map_map]
    have : DiscordRole.id ∘ placeholderRole = id := funext (fun x => rfl)
    rw [this, List.map_id]

/-- C5 witness: the theorem applied at a concrete record with overlapping
configured role lists. -/
theorem c5_witness :
    rolesRouteGET (some "900") true (.ok (some exRolesRecord)) (.error "boom") =
      .ok [placeholderRole "A", placeholderRole "B", placeholderRole "C"]
        (some "discord_roles_unavailable") ∧
    (placeholderRole "A").name = (placeholderRole "A").id := by
  constructor
  · have h := (c5_roles_fallback_placeholders "900" exRolesRecord "boom").1
    rw [h]
    rfl
  · exact (c5_roles_fallback_placeholders "900" exRolesRecord "boom").2.1
      (placeholderRole "A") (by decide)

/-- C6: every guild record surfaced through mapGuildRecord carries a
sanitized permissions object, and for every possible stored JSON shape the
sanitizer produces a permissions value whose two role lists are defined,
keep exactly the string elements of an array field, and default to empty
(never null or undefined). -/
theorem c6_surfaced_permissions_always_defined :
    (∀ (record : RawGuildRecord) (options : MapGuildOptions),
      (mapGuildRecord record options).permissions =
        sanitizeGuildPermissions
          (record.permissions.getD DEFAULT_DB_GUILD_PERMISSIONS_JSON)) ∧
    (∀ v : JsonVal, sanitizeGuildPermissions v =
      ⟨specRoleList v "create_roles", specRoleList v "confirm_roles"⟩) ∧
    (∀ (record : RawGuildRecord) (options : MapGuildOptions),
      (mapGuildRecord record options).permissions =
        ⟨specRoleList (record.permissions.getD DEFAULT_DB_GUILD_PERMISSIONS_JSON)
            "create_roles",
          specRoleList (record.permissions.getD DEFAULT_DB_GUILD_PERMISSIONS_JSON)
            "confirm_roles"⟩) := by
  have hchar : ∀ v : JsonVal, sanitizeGuildPermissions v =
      ⟨specRoleList v "create_roles", specRoleList v "confirm_roles"⟩ := by
    intro v
    cases v <;> rfl
  exact ⟨fun record options => rfl, hchar,
    fun record options => hchar (record.permissions.getD DEFAULT_DB_GUILD_PERMISSIONS_JSON)⟩

/-- C7: a user recognized as the guild owner, or whose permission bits
include the administrator bit, is granted both the create and the confirm
capability unconditionally, whatever the configured role-id lists. -/
theorem c7_owner_or_admin_has_both_capabilities (guild : DiscordGuild)
    (perms : GuildPermissions) (userRoleIds : List String)
    (h : guild.owner = some true ∨ ∃ s n, guild.permissions = some s ∧
      jsBigInt s = some n ∧ Int.land n ADMIN_PERMISSION_BIT = ADMIN_PERMISSION_BIT) :
    resolveCapabilities guild perms userRoleIds = ⟨true, true⟩ := by
  have hadmin : userIsAdminInGuild guild = true := by
    rcases h with howner | ⟨s, n, hs, hn, hbit⟩
    · simp [userIsAdminInGuild, howner]
    · unfold userIsAdminInGuild
      by_cases ho : guild.owner = some true
      · rw [if_pos ho]
      · rw [if_neg ho, hs]
        have hse : s ≠ "" := by
          intro he
          subst he
          have h0 : jsBigInt "" = some 0 := rfl
          rw [h0] at hn
          obtain rfl : (0 : Int) = n := Option.some.inj hn
          exact absurd hbit (by decide)
        simp [hse, hn, hbit]
  simp [resolveCapabilities, hadmin]

/-- C7 witness: the theorem applied to an owned guild with non-empty
configured role lists and no user roles. -/
theorem c7_witness : resolveCapabilities exOwnedGuild ⟨["A"], ["B"]⟩ [] = ⟨true, true⟩ :=
  c7_owner_or_admin_has_both_capabilities exOwnedGuild ⟨["A"], ["B"]⟩ []
    (Or.inl rfl)

theorem updGuildName_guild_id (g u n : String) (r : DbGuildRow) :
    (updGuildName g u n r).guild_id = r.guild_id := by
  unfold updGuildName
  split <;> rfl

theorem updSbGuildName_guild_id (g u n : String) (r : SbGuildRow) :
    (updSbGuildName g u n r).guild_id = r.guild_id := by
  unfold updSbGuildName
  split <;> rfl

theorem updSbGuildName_idem (g u n : String) (r : SbGuildRow) :
    updSbGuildName g u n (updSbGuildName g u n r) = updSbGuildName g u n r := by
  by_cases h : (r.guild_id == g && r.installer_user_id == u) = true
  · have h1 : updSbGuildName g u n r = { r with name := some n } := by
      unfold updSbGuildName
      rw [if_pos h]
    rw [h1]
    unfold updSbGuildName
    rw [if_pos]
    exact h
  · have h1 : updSbGuildName g u n r = r := by
      unfold updSbGuildName
      rw [if_neg h]
    rw [h1]
    exact h1

theorem insertGuildIfAbsent_any (l : List SbGuildRow) (input : CreateGuildRecordInput) :
    (insertGuildIfAbsent l input).any (fun r => r.guild_id == input.guildId) = true := by
  unfold insertGuildIfAbsent
  by_cases h : l.any (fun r => r.guild_id == input.guildId) = true
  · rw [if_pos h]
    exact h
  · rw [if_neg h, List.any_append]
    simp

theorem insertGuildIfAbsent_of_any (l : List SbGuildRow) (input : CreateGuildRecordInput)
    (h : l.any (fun r => r.guild_id == input.guildId) = true) :
    insertGuildIfAbsent l input = l := by
  unfold insertGuildIfAbsent
  rw [if_pos h]

theorem applyGuildName_eq_of_none (l : List SbGuildRow) (input : CreateGuildRecordInput)
    (h : input.name.getD none = none) : applyGuildName l input = l := by
  unfold applyGuildName
  rw [h]

theorem applyGuildName_eq_of_some (l : List SbGuildRow) (input : CreateGuildRecordInput)
    (n : String) (h : input.name.getD none = some n) (hn : n ≠ "") :
    applyGuildName l input =
      l.map (updSbGuildName input.guildId input.installerUserId n) := by
  unfold applyGuildName
  rw [h]
  show (if n ≠ "" then l.map (updSbGuildName input.guildId input.installerUserId n)
    else l) = l.map (updSbGuildName input.guildId input.installerUserId n)
  rw [if_pos hn]

theorem applyGuildName_eq_of_blank (l : List SbGuildRow) (input : CreateGuildRecordInput)
    (n : String) (h : input.name.getD none = some n) (hn : ¬n ≠ "") :
    applyGuildName l input = l := by
  unfold applyGuildName
  rw [h]
  show (if n ≠ "" then l.map (updSbGuildName input.guildId input.installerUserId n)
    else l) = l
  rw [if_neg hn]

theorem applyGuildName_any (l : List SbGuildRow) (input : CreateGuildRecordInput)
    (gid : String) :
    (applyGuildName l input).any (fun r => r.guild_id == gid) =
      l.any (fun r => r.guild_id == gid) := by
  cases hname : input.name.getD none with
  | none => rw [applyGuildName_eq_of_none l input hname]
  | some n =>
    by_cases hn : n ≠ ""
    · rw [applyGuildName_eq_of_some l input n hname hn, List.any_map]
      have hfun : ((fun r : SbGuildRow => r.guild_id == gid) ∘
          updSbGuildName input.guildId input.installerUserId n) =
          (fun r : SbGuildRow => r.guild_id == gid) := by
        funext r
        simp [Function.comp, updSbGuildName_guild_id]
      rw [hfun]
    · rw [applyGuildName_eq_of_blank l input n hname hn]

theorem applyGuildName_idem (l : List SbGuildRow) (input : CreateGuildRecordInput) :
    applyGuildName (applyGuildName l input) input = applyGuildName l input := by
  cases hname : input.name.getD none with
  | none => rw [applyGuildName_eq_of_none _ input hname]
  | some n =>
    by_cases hn : n ≠ ""
    · rw [applyGuildName_eq_of_some _ input n hname hn,
        applyGuildName_eq_of_some l input n hname hn, List.map_map]
      have hfun : (updSbGuildName input.guildId input.installerUserId n ∘
          updSbGuildName input.guildId input.installerUserId n) =
          updSbGuildName input.guildId input.installerUserId n :=
        funext (fun r => updSbGuildName_idem _ _ _ r)
      rw [hfun]
    · rw [applyGuildName_eq_of_blank _ input n hname hn]

theorem createRepo_dup (store : List DbGuildRow) (input : CreateGuildInput)
    (hor : ¬(input.guildId = "" ∨ input.installerUserId = ""))
    (hdup : store.any (fun r => r.guild_id == input.guildId) = true) :
    GuildRepository.create store input = .ok store := by
  unfold GuildRepository.create
  rw [if_neg hor, if_pos hdup]

theorem createRepo_new_none (store : List DbGuildRow) (input : CreateGuildInput)
    (hor : ¬(input.guildId = "" ∨ input.installerUserId = ""))
    (hdup : ¬store.any (fun r => r.guild_id == input.guildId) = true)
    (hname : input.name.getD none = none) :
    GuildRepository.create store input = .ok (store ++ [newGuildRow input]) := by
  unfold GuildRepository.create
  rw [if_neg hor, if_neg hdup, hname]

theorem createRepo_new_some (store : List DbGuildRow) (input : CreateGuildInput)
    (n : String) (hor : ¬(input.guildId = "" ∨ input.installerUserId = ""))
    (hdup : ¬store.any (fun r => r.guild_id == input.guildId) = true)
    (hname : input.name.getD none = some n) (hn : n ≠ "") :
    GuildRepository.create store input =
      .ok ((store ++ [newGuildRow input]).map
        (updGuildName input.guildId input.installerUserId n)) := by
  unfold GuildRepository.create
  rw [if_neg hor, if_neg hdup, hname]
  show (if n ≠ "" then _ else Except.ok (store ++ [newGuildRow input])) = _
  rw [if_pos hn]

theorem createRepo_new_blank (store : List DbGuildRow) (input : CreateGuildInput)
    (n : String) (hor : ¬(input.guildId = "" ∨ input.installerUserId = ""))
    (hdup : ¬store.any (fun r => r.guild_id == input.guildId) = true)
    (hname : input.name.getD none = some n) (hn : ¬n ≠ "") :
    GuildRepository.create store input = .ok (store ++ [newGuildRow input]) := by
  unfold GuildRepository.create
  rw [if_neg hor, if_neg hdup, hname]
  show (if n ≠ "" then Except.ok ((store ++ [newGuildRow input]).map
    (updGuildName input.guildId input.installerUserId n))
    else Except.ok (store ++ [newGuildRow input])) = _
  rw [if_neg hn]

theorem newGuildRow_any (store : List DbGuildRow) (input : CreateGuildInput) :
    (store ++ [newGuildRow input]).any (fun r => r.guild_id == input.guildId) = true := by
  rw [List.any_append]
  simp [newGuildRow]

/-- C8: guild creation is idempotent in both implementations: creating a
guild whose id already exists is a successful no-op, and performing the
create twice leaves the store exactly as performing it once. -/
theorem c8_guild_create_idempotent (store : List DbGuildRow) (input : CreateGuildInput)
    (h1 : input.guildId ≠ "") (h2 : input.installerUserId ≠ "")
    (store2 : List SbGuildRow) (input2 : CreateGuildRecordInput) :
    (GuildRepository.create store input).isOk = true ∧
    (∀ st1, GuildRepository.create store input = .ok st1 →
      GuildRepository.create st1 input = .ok st1) ∧
    createGuildRecord (createGuildRecord store2 input2) input2 =
      createGuildRecord store2 input2 := by
  have hor : ¬(input.guildId = "" ∨ input.installerUserId = "") := by
    rintro (h | h)
    · exact h1 h
    · exact h2 h
  refine ⟨?_, ?_, ?_⟩
  · by_cases hdup : store.any (fun r => r.guild_id == input.guildId) = true
    · rw [createRepo_dup store input hor hdup]
      rfl
    · cases hname : input.name.getD none with
      | none =>
        rw [createRepo_new_none store input hor hdup hname]
        rfl
      | some n =>
        by_cases hn : n ≠ ""
        · rw [createRepo_new_some store input n hor hdup hname hn]
          rfl
        · rw [createRepo_new_blank store input n hor hdup hname hn]
          rfl
  · intro st1 hst1
    by_cases hdup : store.any (fun r => r.guild_id == input.guildId) = true
    · rw [createRepo_dup store input hor hdup] at hst1
      obtain rfl := Except.ok.inj hst1
      exact createRepo_dup store input hor hdup
    · cases hname : input.name.getD none with
      | none =>
        rw [createRepo_new_none store input hor hdup hname] at hst1
        obtain rfl := Except.ok.inj hst1
        exact createRepo_dup _ input hor (newGuildRow_any store input)
      | some n =>
        by_cases hn : n ≠ ""
        · rw [createRepo_new_some store input n hor hdup hname hn] at hst1
          obtain rfl := Except.ok.inj hst1
          refine createRepo_dup _ input hor ?_
          rw [List.any_map]
          have hfun : ((fun r : DbGuildRow => r.guild_id == input.guildId) ∘
              updGuildName input.guildId input.installerUserId n) =
              (fun r : DbGuildRow => r.guild_id == input.guildId) := by
            funext r
            simp [Function.comp, updGuildName_guild_id]
          rw [hfun]
          exact newGuildRow_any store input
        · rw [createRepo_new_blank store input n hor hdup hname hn] at hst1
          obtain rfl := Except.ok.inj hst1
          exact createRepo_dup _ input hor (newGuildRow_any store input)
  · show createGuildRecord (createGuildRecord store2 input2) input2 =
      createGuildRecord store2 input2
    have hany : (applyGuildName (insertGuildIfAbsent store2 input2) input2).any
        (fun r => r.guild_id == input2.guildId) = true := by
      rw [applyGuildName_any]
      exact insertGuildIfAbsent_any store2 input2
    calc createGuildRecord (createGuildRecord store2 input2) input2
      = applyGuildName (insertGuildIfAbsent
          (applyGuildName (insertGuildIfAbsent store2 input2) input2) input2) input2 := rfl
    _ = applyGuildName (applyGuildName (insertGuildIfAbsent store2 input2) input2)
          input2 := by rw [insertGuildIfAbsent_of_any _ input2 hany]
    _ = applyGuildName (insertGuildIfAbsent store2 input2) input2 := by
          rw [applyGuildName_idem]
    _ = createGuildRecord store2 input2 := rfl

/-- C8 witness: the theorem applied at the empty store with concrete
inputs. -/
theorem c8_witness :
    (GuildRepository.create [] exCreateInput).isOk = true ∧
    GuildRepository.create exGuildStore1 exCreateInput = .ok exGuildStore1 ∧
    createGuildRecord (createGuildRecord [] exCreateRecordInput) exCreateRecordInput =
      createGuildRecord [] exCreateRecordInput := by
  have h := c8_guild_create_idempotent [] exCreateInput (by decide) (by decide)
    [] exCreateRecordInput
  refine ⟨h.1, ?_, h.2.2⟩
  refine h.2.1 exGuildStore1 ?_
  rfl


theorem fetchAttempt2_admin (env : FetchEnv) (st : FetchSt) (g : DiscordGuild)
    (hg : g ∈ (fetchAttempt2 env st).1.guilds) : userIsAdminInGuild g = true := by
  unfold fetchAttempt2 at hg
  cases h1 : st.accessToken with
  | none =>
    rw [h1] at hg
    simp at hg
  | some t1 =>
    rw [h1] at hg
    cases hr : (env.request t1).unauthorized with
    | false =>
      simp only [hr, Bool.not_false, if_true] at hg
      exact List.of_mem_filter hg
    | true =>
      simp only [hr, Bool.not_true, Bool.false_eq_true, if_false] at hg
      simp at hg

theorem fetchAttempt1_admin (env : FetchEnv) (st : FetchSt) (g : DiscordGuild)
    (hg : g ∈ (fetchAttempt1 env st).1.guilds) : userIsAdminInGuild g = true := by
  unfold fetchAttempt1 at hg
  cases h1 : st.accessToken with
  | none =>
    rw [h1] at hg
    simp at hg
  | some t0 =>
    rw [h1] at hg
    cases hr : (env.request t0).unauthorized with
    | false =>
      simp only [hr, Bool.not_false, if_true] at hg
      exact List.of_mem_filter hg
    | true =>
      simp only [hr, Bool.not_true, Bool.false_eq_true, if_false] at hg
      exact fetchAttempt2_admin env _ g hg

/-- C9: every guild returned by fetchAdminGuilds satisfies
userIsAdminInGuild (owner flag set or administrator bit present); guilds
where the caller is neither are never in the result. -/
theorem c9_listed_guilds_pass_admin_check (env : FetchEnv) (s0 : Session)
    (g : DiscordGuild) (hg : g ∈ (fetchAdminGuilds env s0).guilds) :
    userIsAdminInGuild g = true := by
  unfold fetchAdminGuilds fetchAdminGuildsI at hg
  exact fetchAttempt1_admin env _ g hg

/-- C9 witness: the theorem applied to a concrete environment returning
one owned and one plain guild. -/
theorem c9_witness : userIsAdminInGuild exOwnedGuild = true := by
  refine c9_listed_guilds_pass_admin_check envTwoGuilds exSession exOwnedGuild ?_
  show exOwnedGuild ∈ (fetchAdminGuilds envTwoGuilds exSession).guilds
  decide

/-- C10: the admin check is total on malformed input: when the owner flag
is not set and the permissions field is absent, empty, or a string on which
the BigInt conversion throws, userIsAdminInGuild returns false instead of
raising. -/
theorem c10_admin_check_total_on_malformed (g : DiscordGuild)
    (howner : g.owner ≠ some true)
    (hperm : g.permissions = none ∨ g.permissions = some "" ∨
      ∃ s, g.permissions = some s ∧ jsBigInt s = none) :
    userIsAdminInGuild g = false := by
  unfold userIsAdminInGuild
  rw [if_neg howner]
  rcases hperm with h | h | ⟨s, hs, hparse⟩
  · rw [h]
  · rw [h]
    rfl
  · rw [hs]
    by_cases hse : s = ""
    · subst hse
      rfl
    · show (if s = "" then false
        else match jsBigInt s with
          | none => false
          | some n => Int.land n ADMIN_PERMISSION_BIT == ADMIN_PERMISSION_BIT) = false
      rw [if_neg hse, hparse]

/-- C10 witness: the theorem applied to a guild whose permissions string
is not numeric. -/
theorem c10_witness :
    userIsAdminInGuild ⟨"902", "weird", none, some false, some "abc"⟩ = false :=
  c10_admin_check_total_on_malformed ⟨"902", "weird", none, some false, some "abc"⟩
    (by decide) (Or.inr (Or.inr ⟨"abc", rfl, by decide⟩))

end Codecat
